import Mathlib

/-!
The claude-gym installer, `scripts/install.js`.

A shallow embedding of the installer script and the properties of its
platform resolver, asset naming, redirect-following download and
install pipeline.
-/

set_option autoImplicit false

namespace Install

deriving instance DecidableEq for Except

/-! ## JavaScript values read out of an object literal -/

/-- The values a property read `obj[key]` on one of the script's object literals can produce:
`undefined`, a string stored in the literal, or a member inherited from `Object.prototype`
(a function, or for `__proto__` the prototype object itself). -/
inductive JSVal where
  | undefined
  | str (s : String)
  | inherited (key : String)
  deriving DecidableEq, Repr

/-- Property names every object literal inherits from `Object.prototype`. -/
def objectPrototypeKeys : List String :=
  ["constructor", "__defineGetter__", "__defineSetter__", "hasOwnProperty",
   "__lookupGetter__", "__lookupSetter__", "isPrototypeOf", "propertyIsEnumerable",
   "toString", "valueOf", "__proto__", "toLocaleString"]

/-- Property read `obj[key]` on an object literal with the given own string properties:
own properties first, then the prototype chain. -/
def propertyGet (own : List (String × String)) (key : String) : JSVal :=
  match own.lookup key with
  | some v => .str v
  | none => if key ∈ objectPrototypeKeys then .inherited key else .undefined

/-- JavaScript truthiness (`!v` is its negation). -/
def JSVal.truthy : JSVal → Bool
  | .undefined => false
  | .str s => s != ""
  | .inherited _ => true

/-- String conversion performed by a template literal. -/
def JSVal.toStr : JSVal → String
  | .undefined => "undefined"
  | .str s => s
  | .inherited key =>
    if key = "__proto__" then "[object Object]"
    else if key = "constructor" then "function Object() \x7b [native code] \x7d"
    else "function " ++ key ++ "() \x7b [native code] \x7d"

/-! ## Platform resolver -/

/-- The record returned by `getPlatformInfo`. -/
structure PlatformInfo where
  os : JSVal
  cpu : JSVal
  isWindows : Bool
  deriving DecidableEq, Repr

def platformMap : List (String × String) :=
  [("darwin", "darwin"), ("linux", "linux"), ("win32", "windows")]

def archMap : List (String × String) :=
  [("x64", "amd64"), ("arm64", "arm64")]

/-- The function `getPlatformInfo`, with `process.platform` and `process.arch` as arguments.
A thrown `Error` is returned as its message. -/
def getPlatformInfo (platform arch : String) : Except String PlatformInfo :=
  let os := propertyGet platformMap platform
  let cpu := propertyGet archMap arch
  if !os.truthy || !cpu.truthy then
    .error ("Unsupported platform: " ++ platform ++ "-" ++ arch)
  else if os = .str "windows" ∧ cpu = .str "arm64" then
    .error "Windows ARM64 is not supported yet"
  else if os = .str "linux" ∧ cpu = .str "arm64" then
    .error "Linux ARM64 is not supported yet"
  else
    .ok { os := os, cpu := cpu, isWindows := platform == "win32" }

/-! ## Asset naming -/

/-- The function `getAssetName(version, os, cpu)`. -/
def getAssetName (version : String) (os cpu : JSVal) : String :=
  let ext := if os = .str "windows" then "zip" else "tar.gz"
  "claude-gym_" ++ version ++ "_" ++ os.toStr ++ "_" ++ cpu.toStr ++ "." ++ ext

/-! ## File system

The part of the file system the script touches: the binaries directory `<root>/bin` and the
scratch directory `<root>/.tmp`, each absent or a directory holding regular files. -/

/-- A regular file: contents and permission bits. -/
structure File where
  content : String
  mode : Nat
  deriving DecidableEq, Repr

/-- The directories `binDir = path.join(__dirname, '..', 'bin')` and
`tmpDir = path.join(__dirname, '..', '.tmp')`. -/
inductive Dir where
  | bin
  | tmp
  deriving DecidableEq, Repr

/-- A directory listing: entry name and file, at most the first entry of a name counts. -/
abbrev Listing := List (String × File)

/-- A path `path.join(dir, name)`. -/
abbrev Loc := Dir × String

/-- File system state: for each directory, `none` when it does not exist. -/
structure FS where
  bin : Option Listing
  tmp : Option Listing
  deriving DecidableEq, Repr

def FS.dir (fs : FS) : Dir → Option Listing
  | .bin => fs.bin
  | .tmp => fs.tmp

def FS.setDir (fs : FS) (d : Dir) (l : Option Listing) : FS :=
  match d with
  | .bin => { fs with bin := l }
  | .tmp => { fs with tmp := l }

/-- Directory entry `name` set to `f`, replacing an entry of that name. -/
def Listing.put (l : Listing) (name : String) (f : File) : Listing :=
  (name, f) :: l.filter (fun e => e.1 != name)

/-- Directory entry `name` removed. -/
def Listing.remove (l : Listing) (name : String) : Listing :=
  l.filter (fun e => e.1 != name)

/-- The call `fs.existsSync(dir)`. -/
def FS.existsSync (fs : FS) (d : Dir) : Bool := (fs.dir d).isSome

/-- The call `fs.mkdirSync(dir, { recursive: true })`: no error when the directory is there. -/
def FS.mkdirSync (fs : FS) (d : Dir) : FS :=
  match fs.dir d with
  | some _ => fs
  | none => fs.setDir d (some [])

/-- The file at a path, if any. -/
def FS.readFile (fs : FS) (p : Loc) : Option File :=
  (fs.dir p.1).bind (fun l => l.lookup p.2)

/-- Create or overwrite the file at a path; `none` when the directory does not exist. -/
def FS.writeFile (fs : FS) (p : Loc) (f : File) : Option FS :=
  (fs.dir p.1).map (fun l => fs.setDir p.1 (some (l.put p.2 f)))

/-- Mode of a file that `fs.createWriteStream` creates: `0o666` without the bits of the
process umask. -/
def createdFileMode (umask : Nat) : Nat := 0o666 &&& (0o777 ^^^ (umask &&& 0o777))

/-- The file at a path as a write stream opened with flag `w` leaves it once `content` is
written: a file that is there keeps its mode, a new one gets the created-file mode. `none`
when the directory does not exist. -/
def FS.writeStream (fs : FS) (p : Loc) (content : String) (umask : Nat) : Option FS :=
  (fs.dir p.1).map (fun l =>
    fs.setDir p.1 (some (l.put p.2
      { content := content,
        mode := match l.lookup p.2 with
          | some f => f.mode
          | none => createdFileMode umask })))

/-- The call `fs.unlink(path, () => {})`: failure is swallowed. -/
def FS.unlink (fs : FS) (p : Loc) : FS :=
  match fs.dir p.1 with
  | none => fs
  | some l => fs.setDir p.1 (some (l.remove p.2))

/-- The call `fs.renameSync(src, dst)`: moves the file, replacing a file at `dst`. -/
def FS.renameSync (fs : FS) (src dst : Loc) : Except String FS :=
  match fs.readFile src with
  | none => .error "ENOENT: no such file or directory, rename"
  | some f =>
    match (fs.unlink src).writeFile dst f with
    | none => .error "ENOENT: no such file or directory, rename"
    | some fs2 => .ok fs2

/-- The call `fs.chmodSync(path, mode)`. -/
def FS.chmodSync (fs : FS) (p : Loc) (mode : Nat) : Except String FS :=
  match fs.readFile p with
  | none => .error "ENOENT: no such file or directory, chmod"
  | some f =>
    match fs.writeFile p { f with mode := mode } with
    | none => .error "ENOENT: no such file or directory, chmod"
    | some fs2 => .ok fs2

/-- The call `fs.rmSync(dir, { recursive: true, force: true })`. -/
def FS.rmSync (fs : FS) (d : Dir) : FS := fs.setDir d none

/-! ## Asset fetcher -/

/-- An HTTP response as `downloadFile` reads it: status code, `Location` header, body. -/
structure Response where
  statusCode : Nat
  location : String
  body : String
  deriving DecidableEq, Repr

/-- What a call `https.get(url, ...)` leads to: a synchronous throw (the string is not a URL
that `https.get` accepts), an `error` event on the request (transport failure), or a
response. -/
inductive Reply where
  | threw (message : String)
  | error (message : String)
  | response (r : Response)
  deriving DecidableEq, Repr

/-- The remote side, asked with the string passed to `https.get`. -/
abbrev Server := String → Reply

/-- Tab and newline characters, which the URL parser removes from its input. -/
def isTabOrNewline (c : Char) : Bool := c.toNat = 9 || c.toNat = 10 || c.toNat = 13

/-- C0 control characters and space, which the URL parser strips from the start of its
input. -/
def isC0ControlOrSpace (c : Char) : Bool := decide (c.toNat ≤ 32)

/-- ASCII letters. -/
def isAsciiAlpha (c : Char) : Bool :=
  (decide (65 ≤ c.toNat) && decide (c.toNat ≤ 90)) ||
  (decide (97 ≤ c.toNat) && decide (c.toNat ≤ 122))

/-- Characters of a URL scheme after its first: ASCII letters and digits, `+`, `-`, `.`. -/
def isSchemeChar (c : Char) : Bool :=
  isAsciiAlpha c || (decide (48 ≤ c.toNat) && decide (c.toNat ≤ 57)) ||
  c.toNat = 43 || c.toNat = 45 || c.toNat = 46

/-- The scheme that `new URL(url)` reads off a string, in lower case: an ASCII letter and
scheme characters up to a colon. `none` when the string does not start with a scheme, in
which case it is not an absolute URL. -/
def urlScheme (url : String) : Option String :=
  match (url.data.dropWhile isC0ControlOrSpace).filter (fun c => !isTabOrNewline c) with
  | [] => none
  | c :: rest =>
    if isAsciiAlpha c then
      match rest.dropWhile isSchemeChar with
      | d :: _ =>
        if d.toNat = 58 then
          some (String.mk ((c :: rest.takeWhile isSchemeChar).map Char.toLower))
        else none
      | [] => none
    else none

/-- The call `https.get(url, ...)`: it throws on a string without a scheme (`Invalid URL`)
and on one whose scheme is not `https`; on an `https` URL the remote side decides, and may
still report a throw for a string the URL parser rejects further on. -/
def httpsGet (server : Server) (url : String) : Reply :=
  match urlScheme url with
  | none => .threw "Invalid URL"
  | some scheme =>
    if scheme = "https" then server url
    else
      match server url with
      | .threw message => .threw message
      | _ => .threw ("Protocol \"" ++ scheme ++ ":\" not supported. Expected \"https:\"")

/-- How the promise returned by `downloadFile` or by an extractor ends. `uncaught` is an
exception outside the promise, which ends the process: an `error` event on a stream without
a listener, or a throw inside the response callback. -/
inductive Settled where
  | resolved
  | rejected (message : String)
  | uncaught (message : String)
  deriving DecidableEq, Repr

/-- What a call of `downloadFile` did: how it settled, the URLs it issued a GET to in order,
and the file system afterwards. -/
structure Download where
  settled : Settled
  gets : List String
  fs : FS
  deriving DecidableEq, Repr

/-- The inner `request(url)` of `downloadFile`; `gets` are the GETs issued before this one,
and `inCallback` tells the call made from the response callback on a redirect from the
first call, made in the promise executor: a throw of `https.get` rejects the promise in the
executor and is uncaught in the callback. The recursion on redirects has no bound in the
script, here `fuel` bounds it and `none` is a redirect chain longer than `fuel`. -/
def request (server : Server) (destPath : Loc) (umask : Nat) :
    Nat → Bool → String → List String → FS → Option Download
  | 0, _, _, _, _ => none
  | fuel + 1, inCallback, url, gets, fs =>
    match httpsGet server url with
    | .threw message =>
      some { settled := if inCallback then .uncaught message else .rejected message,
             gets := gets, fs := fs }
    | .error err =>
      some { settled := .rejected err, gets := gets ++ [url], fs := fs.unlink destPath }
    | .response response =>
      if response.statusCode = 302 ∨ response.statusCode = 301 then
        request server destPath umask fuel true response.location (gets ++ [url]) fs
      else if response.statusCode ≠ 200 then
        some { settled := .rejected ("Failed to download: " ++ toString response.statusCode),
               gets := gets ++ [url], fs := fs }
      else
        match fs.writeStream destPath response.body umask with
        | none => some { settled := .uncaught "ENOENT: no such file or directory, open",
                         gets := gets ++ [url], fs := fs }
        | some fs2 => some { settled := .resolved, gets := gets ++ [url], fs := fs2 }

/-- The function `downloadFile(url, destPath)`: the write stream is created first (an empty
file at `destPath`), then the request is issued. When the stream cannot open the file its
`error` event has no listener. -/
def downloadFile (server : Server) (umask : Nat) (fuel : Nat) (url : String) (destPath : Loc)
    (fs : FS) : Option Download :=
  match fs.writeStream destPath "" umask with
  | none =>
    some { settled := .uncaught "ENOENT: no such file or directory, open",
           gets := match httpsGet server url with
             | .threw _ => []
             | _ => [url],
           fs := fs }
  | some fs1 => request server destPath umask fuel false url [] fs1

/-! ## Release metadata -/

/-- An entry of `release.assets`, with the two fields the script reads. -/
structure Asset where
  name : String
  browser_download_url : String
  deriving DecidableEq, Repr

/-- The parsed body of the release lookup, with the two fields the script reads. -/
structure Release where
  tag_name : String
  assets : List Asset
  deriving DecidableEq, Repr

/-! ## Archive unpacker -/

/-- What an external unarchiver (`unzip`, PowerShell `Expand-Archive`) does with an archive:
the members it has written into the destination directory by the time it stops, and the
error it stops with, if any. -/
structure Extraction where
  members : Listing
  error : Option String
  deriving DecidableEq, Repr

/-- An external unarchiver as a function of the archive's contents. -/
abbrev Unarchiver := String → Extraction

/-- The stream of the `extractTarGz` pipeline that emits an `error` event. The promise has a
listener on the `tar.extract` stream only. -/
inductive StreamError where
  | gunzip (message : String)
  | tar (message : String)
  deriving DecidableEq, Repr

/-- What the `zlib.createGunzip()` and `tar.extract` pipeline does with an archive: the
members written into the destination directory by the time it stops, and the `error` event
it stops with, if any. -/
structure TarGzExtraction where
  members : Listing
  error : Option StreamError
  deriving DecidableEq, Repr

/-- Members written into a directory listing, each replacing an entry of its name. -/
def Listing.putAll (l : Listing) (members : Listing) : Listing :=
  members.foldl (fun acc e => acc.put e.1 e.2) l

/-- Run an external unarchiver on the file at `archivePath`, writing members into
`destDir`. -/
def unpack (tool : Unarchiver) (archivePath : Loc) (destDir : Dir) (fs : FS) :
    Settled × FS :=
  match fs.readFile archivePath, fs.dir destDir with
  | some archive, some listing =>
    let x := tool archive.content
    (match x.error with
      | none => .resolved
      | some message => .rejected message,
     fs.setDir destDir (some (listing.putAll x.members)))
  | _, _ => (.rejected "ENOENT: no such file or directory", fs)

/-! ## The run -/

/-- Everything outside the script that a run depends on. -/
structure World where
  /-- The value of `process.platform`. -/
  platform : String
  /-- The value of `process.arch`. -/
  arch : String
  /-- The outcome of `getPackageVersion()`: the text `pkg.version` interpolates to, or the
  message of the error thrown while reading `package.json`. -/
  packageVersion : Except String String
  /-- The outcome of `getReleaseByTag(tag)`: the parsed body, or the rejection message. -/
  releases : String → Except String Release
  /-- The download host. -/
  server : Server
  /-- The process umask. -/
  umask : Nat
  /-- The `zlib.createGunzip()` and `tar.extract` pipeline of `extractTarGz`. -/
  gunzipUntar : String → TarGzExtraction
  /-- The command `powershell -command "Expand-Archive ..."` of `extractZip`. -/
  expandArchive : Unarchiver
  /-- The command `unzip -o ...` of `extractZip`. -/
  unzip : Unarchiver
  /-- The file system when the script starts. -/
  fs : FS

/-- The function `extractTarGz(archivePath, destDir)`: how its promise ends and the file
system afterwards. An `error` event of the read stream or of the gunzip stream has no
listener; one of the `tar.extract` stream rejects the promise. -/
def extractTarGz (w : World) (archivePath : Loc) (destDir : Dir) (fs : FS) : Settled × FS :=
  match fs.readFile archivePath with
  | none => (.uncaught "ENOENT: no such file or directory, open", fs)
  | some archive =>
    let x := w.gunzipUntar archive.content
    match fs.dir destDir with
    | none => (.rejected "ENOENT: no such file or directory, chdir", fs)
    | some listing =>
      (match x.error with
        | none => .resolved
        | some (.gunzip message) => .uncaught message
        | some (.tar message) => .rejected message,
       fs.setDir destDir (some (listing.putAll x.members)))

/-- The function `extractZip(archivePath, destDir)`: `resolved`, or `rejected` with the
message of the error thrown by `execSync`, and the file system afterwards. -/
def extractZip (w : World) (archivePath : Loc) (destDir : Dir) (fs : FS) : Settled × FS :=
  if w.platform = "win32" then unpack w.expandArchive archivePath destDir fs
  else unpack w.unzip archivePath destDir fs

/-- Observable steps of a run, in order. -/
inductive Event where
  | consoleLog (line : String)
  | consoleError (line : String)
  | getReleaseByTag (tag : String)
  | mkdirSync (dir : Dir)
  | downloadFile (url : String) (destPath : Loc)
  | httpsGet (url : String)
  | extractZip (archivePath : Loc) (destDir : Dir)
  | extractTarGz (archivePath : Loc) (destDir : Dir)
  | renameSync (src dst : Loc)
  | chmodSync (path : Loc) (mode : Nat)
  | rmSync (dir : Dir)
  deriving DecidableEq, Repr

/-- The step of `main` at which a run fails. -/
inductive Stage where
  | platform
  | version
  | release
  | asset
  | download
  | extract
  | rename
  | chmod
  deriving DecidableEq, Repr

/-- A finished run of `main`: the process exit code, the failing step and `error.message` of a
failed run, the steps taken and the file system left behind. -/
structure Run where
  exitCode : Nat
  failure : Option (Stage × String)
  trace : List Event
  fs : FS
  deriving DecidableEq, Repr

/-- The `catch` block of `main`. -/
def fail (stage : Stage) (message : String) (trace : List Event) (fs : FS) : Run :=
  { exitCode := 1, failure := some (stage, message),
    trace := trace ++ [.consoleError ("Installation failed: " ++ message)], fs := fs }

/-- An uncaught exception: the process ends with exit code 1 outside the `catch` block. -/
def crash (stage : Stage) (message : String) (trace : List Event) (fs : FS) : Run :=
  { exitCode := 1, failure := some (stage, message), trace := trace, fs := fs }

/-- The end of `main` after the binary is in place: cleanup and the success lines. -/
def cleanup (trace : List Event) (fs : FS) : Run :=
  { exitCode := 0, failure := none,
    trace := trace ++ [.rmSync .tmp, .consoleLog "Claude Gym installed successfully!",
                       .consoleLog "Run \"cgym\" to watch your current project."],
    fs := fs.rmSync .tmp }

/-- The part of `main` after the download: extract, move the binary, cleanup. -/
def extractAndInstall (w : World) (info : PlatformInfo) (assetName : String)
    (trace : List Event) (fs : FS) : Run :=
  let archivePath : Loc := (.tmp, assetName)
  let t := trace ++ [.consoleLog "Extracting..."]
  if info.isWindows then
    let t1 := t ++ [.extractZip archivePath .tmp]
    match extractZip w archivePath .tmp fs with
    | (.rejected err, fs1) => fail .extract err t1 fs1
    | (.uncaught err, fs1) => crash .extract err t1 fs1
    | (.resolved, fs1) =>
      let src : Loc := (.tmp, "cgym-windows-amd64.exe")
      let dst : Loc := (.bin, "cgym.exe")
      let t2 := t1 ++ [.renameSync src dst]
      match fs1.renameSync src dst with
      | .error err => fail .rename err t2 fs1
      | .ok fs2 => cleanup t2 fs2
  else
    let t1 := t ++ [.extractTarGz archivePath .tmp]
    match extractTarGz w archivePath .tmp fs with
    | (.rejected err, fs1) => fail .extract err t1 fs1
    | (.uncaught err, fs1) => crash .extract err t1 fs1
    | (.resolved, fs1) =>
      let extractedBinary : Loc := (.tmp, "cgym-" ++ info.os.toStr ++ "-" ++ info.cpu.toStr)
      let destBinary : Loc := (.bin, "cgym")
      let t2 := t1 ++ [.renameSync extractedBinary destBinary]
      match fs1.renameSync extractedBinary destBinary with
      | .error err => fail .rename err t2 fs1
      | .ok fs2 =>
        let t3 := t2 ++ [.chmodSync destBinary 0o755]
        match fs2.chmodSync destBinary 0o755 with
        | .error err => fail .chmod err t3 fs2
        | .ok fs3 => cleanup t3 fs3

/-- The statement `if (!fs.existsSync(dir)) fs.mkdirSync(dir, { recursive: true })`: the file
system and the trace after it. -/
def ensureDir (d : Dir) (fs : FS) (trace : List Event) : FS × List Event :=
  if !fs.existsSync d then (fs.mkdirSync d, trace ++ [.mkdirSync d]) else (fs, trace)

/-- The part of `main` from the directory setup to the end, for the asset found. -/
def downloadAndInstall (w : World) (fuel : Nat) (info : PlatformInfo) (assetName : String)
    (asset : Asset) (trace : List Event) : Option Run :=
  let s1 := ensureDir .bin w.fs trace
  let s2 := ensureDir .tmp s1.1 s1.2
  let archivePath : Loc := (.tmp, assetName)
  let t3 := s2.2 ++ [.consoleLog ("Downloading " ++ assetName ++ "..."),
                     .downloadFile asset.browser_download_url archivePath]
  match downloadFile w.server w.umask fuel asset.browser_download_url archivePath s2.1 with
  | none => none
  | some d =>
    let t4 := t3 ++ d.gets.map .httpsGet
    match d.settled with
    | .rejected err => some (fail .download err t4 d.fs)
    | .uncaught err => some (crash .download err t4 d.fs)
    | .resolved => some (extractAndInstall w info assetName t4 d.fs)

/-- The function `main()`, up to the process exit. `fuel` bounds the redirects followed by the download;
`none` is a run that never ends. -/
def main (w : World) (fuel : Nat) : Option Run :=
  let t0 := [Event.consoleLog "Installing Claude Gym..."]
  match getPlatformInfo w.platform w.arch with
  | .error err => some (fail .platform err t0 w.fs)
  | .ok info =>
    let t1 := t0 ++ [.consoleLog ("Platform: " ++ info.os.toStr ++ "-" ++ info.cpu.toStr)]
    match w.packageVersion with
    | .error err => some (fail .version err t1 w.fs)
    | .ok pkgVersion =>
      let tag := "v" ++ pkgVersion
      let t2 := t1 ++ [.consoleLog ("Version: " ++ tag), .getReleaseByTag tag]
      match w.releases tag with
      | .error err => some (fail .release err t2 w.fs)
      | .ok release =>
        let version := release.tag_name
        let assetName := getAssetName version info.os info.cpu
        match release.assets.find? (fun a => a.name == assetName) with
        | none => some (fail .asset ("Could not find release asset: " ++ assetName) t2 w.fs)
        | some asset => downloadAndInstall w fuel info assetName asset t2

/-- Steps that reach the network. -/
def Event.isNetwork : Event → Bool
  | .getReleaseByTag _ => true
  | .downloadFile _ _ => true
  | .httpsGet _ => true
  | _ => false

/-- Steps that belong to a download: the call of `downloadFile`, its GETs, and the creation
of the directories it writes into. -/
def Event.isDownloadStep : Event → Bool
  | .downloadFile _ _ => true
  | .httpsGet _ => true
  | .mkdirSync _ => true
  | _ => false

/-- The string `name` ends in `suffix`. -/
abbrev endsWith (name suffix : String) : Prop := suffix.data <:+ name.data

/-- The URLs of the GETs made when, starting at `url`, the first `hops` responses are each a
301 or 302 and each next GET goes to the `Location` of the response before it: `url` first,
the target of the last redirect last. `none` when one of those responses is not a redirect. -/
def redirectChain (server : Server) : Nat → String → Option (List String)
  | 0, url => some [url]
  | hops + 1, url =>
    match httpsGet server url with
    | .response response =>
      if response.statusCode = 301 ∨ response.statusCode = 302 then
        (redirectChain server hops response.location).map (fun urls => url :: urls)
      else none
    | _ => none

/-! ## Definitions used in the statements, and example hosts -/

/-- The OS names of `PlatformInfo`. -/
def osNames : List String := ["darwin", "linux", "windows"]

/-- The CPU names of `PlatformInfo`. -/
def cpuNames : List String := ["amd64", "arm64"]

/-- The events of a trace that are a `renameSync`. -/
def Event.isRename : Event → Bool
  | .renameSync _ _ => true
  | _ => false

/-- A host with a binary left by an earlier install: the release has the asset, the download
succeeds, and the archive turns out to be malformed. -/
def reinstallWorld : World where
  platform := "linux"
  arch := "x64"
  packageVersion := .ok "1.0.0"
  releases := fun _ =>
    .ok { tag_name := "v1.0.0",
          assets := [{ name := "claude-gym_v1.0.0_linux_amd64.tar.gz",
                       browser_download_url := "https://releases.test/linux" }] }
  server := fun _ => .response { statusCode := 200, location := "", body := "not a gzip stream" }
  umask := 0o022
  gunzipUntar := fun _ => { members := [], error := some (.gunzip "incorrect header check") }
  expandArchive := fun _ => { members := [], error := some "Expand-Archive failed" }
  unzip := fun _ => { members := [], error := some "unzip failed" }
  fs := { bin := some [("cgym", { content := "binary of the earlier install", mode := 0o755 })],
          tmp := none }

/-- The run of `main` on `reinstallWorld`. -/
def reinstallRun : Run where
  exitCode := 1
  failure := some (.extract, "incorrect header check")
  trace := [.consoleLog "Installing Claude Gym...", .consoleLog "Platform: linux-amd64",
    .consoleLog "Version: v1.0.0", .getReleaseByTag "v1.0.0",
    .mkdirSync .tmp,
    .consoleLog "Downloading claude-gym_v1.0.0_linux_amd64.tar.gz...",
    .downloadFile "https://releases.test/linux" (.tmp, "claude-gym_v1.0.0_linux_amd64.tar.gz"),
    .httpsGet "https://releases.test/linux",
    .consoleLog "Extracting...",
    .extractTarGz (.tmp, "claude-gym_v1.0.0_linux_amd64.tar.gz") .tmp]
  fs := { bin := some [("cgym", { content := "binary of the earlier install", mode := 0o755 })],
          tmp := some [("claude-gym_v1.0.0_linux_amd64.tar.gz",
                  { content := "not a gzip stream", mode := 0o644 })] }

/-- A linux host whose binaries directory already holds another file; the release has the
asset and the archive holds the binary. -/
def sharedBinWorld : World where
  platform := "linux"
  arch := "x64"
  packageVersion := .ok "1.0.0"
  releases := fun _ =>
    .ok { tag_name := "v1.0.0",
          assets := [{ name := "claude-gym_v1.0.0_linux_amd64.tar.gz",
                       browser_download_url := "https://releases.test/linux" }] }
  server := fun _ => .response { statusCode := 200, location := "", body := "archive" }
  umask := 0o022
  gunzipUntar := fun _ =>
    { members := [("cgym-linux-amd64", { content := "binary", mode := 0o644 })], error := none }
  expandArchive := fun _ => { members := [], error := some "Expand-Archive failed" }
  unzip := fun _ => { members := [], error := some "unzip failed" }
  fs := { bin := some [(".gitkeep", { content := "", mode := 0o644 })], tmp := none }

/-- The run of `main` on `sharedBinWorld`. -/
def sharedBinRun : Run where
  exitCode := 0
  failure := none
  trace := [.consoleLog "Installing Claude Gym...", .consoleLog "Platform: linux-amd64",
    .consoleLog "Version: v1.0.0", .getReleaseByTag "v1.0.0",
    .mkdirSync .tmp,
    .consoleLog "Downloading claude-gym_v1.0.0_linux_amd64.tar.gz...",
    .downloadFile "https://releases.test/linux" (.tmp, "claude-gym_v1.0.0_linux_amd64.tar.gz"),
    .httpsGet "https://releases.test/linux",
    .consoleLog "Extracting...",
    .extractTarGz (.tmp, "claude-gym_v1.0.0_linux_amd64.tar.gz") .tmp,
    .renameSync (.tmp, "cgym-linux-amd64") (.bin, "cgym"),
    .chmodSync (.bin, "cgym") 0o755,
    .rmSync .tmp,
    .consoleLog "Claude Gym installed successfully!",
    .consoleLog "Run \"cgym\" to watch your current project."]
  fs := { bin := some [("cgym", { content := "binary", mode := 0o755 }),
                       (".gitkeep", { content := "", mode := 0o644 })],
          tmp := none }

/-- The steps of the extraction stage of `main`: its log line `Extracting...` and the calls
of the extractors. -/
def Event.isExtractStep : Event → Bool
  | .consoleLog line => line == "Extracting..."
  | .extractZip _ _ => true
  | .extractTarGz _ _ => true
  | _ => false

/-- The events of a trace that are a call of an extractor. -/
def Event.isExtract : Event → Bool
  | .extractZip _ _ => true
  | .extractTarGz _ _ => true
  | _ => false

/-- A windows host: the release has the zip asset and the archive holds the binary. -/
def windowsWorld : World where
  platform := "win32"
  arch := "x64"
  packageVersion := .ok "1.0.0"
  releases := fun _ =>
    .ok { tag_name := "v1.0.0",
          assets := [{ name := "claude-gym_v1.0.0_windows_amd64.zip",
                       browser_download_url := "https://releases.test/windows" }] }
  server := fun _ => .response { statusCode := 200, location := "", body := "archive" }
  umask := 0o022
  gunzipUntar := fun _ => { members := [], error := some (.gunzip "incorrect header check") }
  expandArchive := fun _ =>
    { members := [("cgym-windows-amd64.exe", { content := "binary", mode := 0o644 })],
      error := none }
  unzip := fun _ => { members := [], error := some "unzip failed" }
  fs := { bin := none, tmp := none }

/-- The run of `main` on `windowsWorld`. -/
def windowsRun : Run where
  exitCode := 0
  failure := none
  trace := [.consoleLog "Installing Claude Gym...", .consoleLog "Platform: windows-amd64",
    .consoleLog "Version: v1.0.0", .getReleaseByTag "v1.0.0",
    .mkdirSync .bin, .mkdirSync .tmp,
    .consoleLog "Downloading claude-gym_v1.0.0_windows_amd64.zip...",
    .downloadFile "https://releases.test/windows" (.tmp, "claude-gym_v1.0.0_windows_amd64.zip"),
    .httpsGet "https://releases.test/windows",
    .consoleLog "Extracting...",
    .extractZip (.tmp, "claude-gym_v1.0.0_windows_amd64.zip") .tmp,
    .renameSync (.tmp, "cgym-windows-amd64.exe") (.bin, "cgym.exe"),
    .rmSync .tmp,
    .consoleLog "Claude Gym installed successfully!",
    .consoleLog "Run \"cgym\" to watch your current project."]
  fs := { bin := some [("cgym.exe", { content := "binary", mode := 0o644 })], tmp := none }

/-- A linux arm64 host, one of the two excluded combinations. -/
def linuxArmWorld : World where
  platform := "linux"
  arch := "arm64"
  packageVersion := .ok "1.0.0"
  releases := fun _ => .error "getaddrinfo ENOTFOUND api.github.com"
  server := fun _ => .error "getaddrinfo ENOTFOUND github.com"
  umask := 0o022
  gunzipUntar := fun _ => { members := [], error := some (.gunzip "incorrect header check") }
  expandArchive := fun _ => { members := [], error := some "Expand-Archive failed" }
  unzip := fun _ => { members := [], error := some "unzip failed" }
  fs := { bin := none, tmp := none }

/-- A release that has no asset for darwin. -/
def linuxOnlyRelease : Release where
  tag_name := "v1.0.0"
  assets := [{ name := "claude-gym_v1.0.0_linux_amd64.tar.gz",
               browser_download_url := "https://releases.test/linux" }]

/-- A darwin arm64 host whose release lacks the darwin asset. -/
def missingAssetWorld : World where
  platform := "darwin"
  arch := "arm64"
  packageVersion := .ok "1.0.0"
  releases := fun _ => .ok linuxOnlyRelease
  server := fun _ => .response { statusCode := 200, location := "", body := "archive" }
  umask := 0o022
  gunzipUntar := fun _ =>
    { members := [("cgym-darwin-arm64", { content := "binary", mode := 0o644 })], error := none }
  expandArchive := fun _ => { members := [], error := some "Expand-Archive failed" }
  unzip := fun _ => { members := [], error := some "unzip failed" }
  fs := { bin := none, tmp := none }

/-- A download host that redirects the asset URL to a mirror, which serves the archive, and
answers 404 elsewhere. -/
def mirrorServer : Server := fun url =>
  if url = "https://releases.test/asset" then
    .response { statusCode := 302, location := "https://mirror.test/asset", body := "" }
  else if url = "https://mirror.test/asset" then
    .response { statusCode := 200, location := "", body := "archive" }
  else
    .response { statusCode := 404, location := "", body := "Not Found" }

/-- A download host that redirects the asset URL to a mirror reached over plain `http`;
every URL other than the asset's is answered with the archive. -/
def httpMirrorServer : Server := fun url =>
  if url = "https://releases.test/asset" then
    .response { statusCode := 302, location := "http://mirror.test/asset", body := "" }
  else
    .response { statusCode := 200, location := "", body := "archive" }

/-- The values Node documents for `process.platform`. -/
def nodePlatforms : List String :=
  ["aix", "android", "darwin", "freebsd", "haiku", "linux", "openbsd", "sunos", "win32",
   "cygwin", "netbsd"]

/-- The values Node documents for `process.arch`. -/
def nodeArchs : List String :=
  ["arm", "arm64", "ia32", "loong64", "mips", "mipsel", "ppc", "ppc64", "riscv64", "s390",
   "s390x", "x64"]

/-! ## Platform resolver: properties -/

/-- C1: on the host pairs (darwin, x64), (darwin, arm64), (linux, x64) and (win32, x64),
`getPlatformInfo` succeeds with the mapped OS name, the mapped CPU name, and `isWindows`
true exactly for win32. -/
theorem getPlatformInfo_supported :
    getPlatformInfo "darwin" "x64" = .ok ⟨.str "darwin", .str "amd64", false⟩ ∧
    getPlatformInfo "darwin" "arm64" = .ok ⟨.str "darwin", .str "arm64", false⟩ ∧
    getPlatformInfo "linux" "x64" = .ok ⟨.str "linux", .str "amd64", false⟩ ∧
    getPlatformInfo "win32" "x64" = .ok ⟨.str "windows", .str "amd64", true⟩ := by
  decide

/-- C2, as stated, fails: on the platform string `constructor`, which is not a key of the
platform table, `getPlatformInfo` does not fail. The table lookup finds the member inherited
from `Object.prototype`, which is truthy, and a record is returned. -/
theorem getPlatformInfo_inherited_key :
    getPlatformInfo "constructor" "x64"
      = .ok { os := .inherited "constructor", cpu := .str "amd64", isWindows := false } := by
  decide

theorem propertyGet_platformMap (platform : String) :
    propertyGet platformMap platform =
      if platform = "darwin" then .str "darwin"
      else if platform = "linux" then .str "linux"
      else if platform = "win32" then .str "windows"
      else if platform ∈ objectPrototypeKeys then .inherited platform
      else .undefined := by
  by_cases h1 : platform = "darwin"
  · subst h1; decide
  by_cases h2 : platform = "linux"
  · subst h2; decide
  by_cases h3 : platform = "win32"
  · subst h3; decide
  have e1 : (platform == "darwin") = false := by simpa using h1
  have e2 : (platform == "linux") = false := by simpa using h2
  have e3 : (platform == "win32") = false := by simpa using h3
  simp [propertyGet, platformMap, List.lookup, h1, h2, h3, e1, e2, e3]

theorem propertyGet_archMap (arch : String) :
    propertyGet archMap arch =
      if arch = "x64" then .str "amd64"
      else if arch = "arm64" then .str "arm64"
      else if arch ∈ objectPrototypeKeys then .inherited arch
      else .undefined := by
  by_cases h1 : arch = "x64"
  · subst h1; decide
  by_cases h2 : arch = "arm64"
  · subst h2; decide
  have e1 : (arch == "x64") = false := by simpa using h1
  have e2 : (arch == "arm64") = false := by simpa using h2
  simp [propertyGet, archMap, List.lookup, h1, h2, e1, e2]

/-- C2, amended: for every platform string and arch string that do not name a member
inherited from `Object.prototype` (no value that Node reports for `process.platform` or
`process.arch` does), `getPlatformInfo` fails whenever the platform is not one of darwin,
linux, win32, or the arch is not one of x64, arm64, or the pair is (win32, arm64) or
(linux, arm64): with `Unsupported platform: <platform>-<arch>` for an identifier outside the
tables and with the message of its case for the two excluded pairs. It returns no record for
any such input. -/
theorem getPlatformInfo_rejects (platform arch : String)
    (hp : platform ∉ objectPrototypeKeys) (ha : arch ∉ objectPrototypeKeys)
    (h : platform ∉ ["darwin", "linux", "win32"] ∨ arch ∉ ["x64", "arm64"] ∨
      (platform = "win32" ∧ arch = "arm64") ∨ (platform = "linux" ∧ arch = "arm64")) :
    getPlatformInfo platform arch = .error
      (if platform ∉ ["darwin", "linux", "win32"] ∨ arch ∉ ["x64", "arm64"] then
        "Unsupported platform: " ++ platform ++ "-" ++ arch
      else if platform = "win32" then "Windows ARM64 is not supported yet"
      else "Linux ARM64 is not supported yet") := by
  unfold getPlatformInfo
  rw [propertyGet_platformMap, propertyGet_archMap]
  by_cases h1 : platform = "darwin" <;> by_cases h2 : platform = "linux" <;>
    by_cases h3 : platform = "win32" <;> by_cases h4 : arch = "x64" <;>
    by_cases h5 : arch = "arm64" <;>
    simp_all [JSVal.truthy]

theorem getPlatformInfo_rejects_witness :
    "freebsd" ∉ objectPrototypeKeys ∧ "x64" ∉ objectPrototypeKeys ∧
    "freebsd" ∉ ["darwin", "linux", "win32"] ∧
    getPlatformInfo "freebsd" "x64" = .error
      (if "freebsd" ∉ ["darwin", "linux", "win32"] ∨ "x64" ∉ ["x64", "arm64"] then
        "Unsupported platform: " ++ "freebsd" ++ "-" ++ "x64"
      else if "freebsd" = "win32" then "Windows ARM64 is not supported yet"
      else "Linux ARM64 is not supported yet") :=
  ⟨by decide, by decide, by decide,
    getPlatformInfo_rejects "freebsd" "x64" (by decide) (by decide) (Or.inl (by decide))⟩

/-- No value that Node documents for `process.platform` or `process.arch` names a member
inherited from `Object.prototype`, and over those values `getPlatformInfo` returns a record
on exactly the four supported pairs. -/
theorem getPlatformInfo_node_values :
    (∀ platform ∈ nodePlatforms, platform ∉ objectPrototypeKeys) ∧
    (∀ arch ∈ nodeArchs, arch ∉ objectPrototypeKeys) ∧
    (∀ platform ∈ nodePlatforms, ∀ arch ∈ nodeArchs,
      (getPlatformInfo platform arch).toBool = true ↔
        (platform, arch) ∈ [("darwin", "x64"), ("darwin", "arm64"), ("linux", "x64"),
          ("win32", "x64")]) := by
  refine ⟨by decide, by decide, ?_⟩
  decide

/-! ## Asset naming: properties -/

/-- C3: for every version, os and cpu string, `getAssetName` is
`claude-gym_<version>_<os>_<cpu>.<ext>` with `ext` being `zip` when os is `windows` and
`tar.gz` otherwise; the two documented names for `v1.2.3` come out as written. -/
theorem getAssetName_format (v os cpu : String) :
    getAssetName v (.str os) (.str cpu)
        = "claude-gym_" ++ v ++ "_" ++ os ++ "_" ++ cpu ++ "."
            ++ (if os = "windows" then "zip" else "tar.gz") ∧
    getAssetName "v1.2.3" (.str "darwin") (.str "amd64")
        = "claude-gym_v1.2.3_darwin_amd64.tar.gz" ∧
    getAssetName "v1.2.3" (.str "windows") (.str "amd64")
        = "claude-gym_v1.2.3_windows_amd64.zip" := by
  refine ⟨?_, by decide, by decide⟩
  by_cases h : os = "windows" <;> simp [getAssetName, JSVal.toStr, h]

theorem string_append_left_cancel (a b c : String) (h : a ++ b = a ++ c) : b = c := by
  have h1 := congrArg String.data h
  simp only [String.data_append] at h1
  exact String.ext (List.append_cancel_left h1)

/-- C9: for a fixed version, `getAssetName` is injective over the OS names
darwin, linux, windows and the CPU names amd64, arm64. -/
theorem getAssetName_injective (v os1 cpu1 os2 cpu2 : String)
    (ho1 : os1 ∈ osNames) (hc1 : cpu1 ∈ cpuNames)
    (ho2 : os2 ∈ osNames) (hc2 : cpu2 ∈ cpuNames)
    (h : getAssetName v (.str os1) (.str cpu1) = getAssetName v (.str os2) (.str cpu2)) :
    os1 = os2 ∧ cpu1 = cpu2 := by
  simp only [getAssetName, JSVal.toStr, String.append_assoc] at h
  have h1 := string_append_left_cancel _ _ _ (string_append_left_cancel _ _ _ h)
  simp only [osNames, cpuNames, List.mem_cons, List.mem_singleton, List.not_mem_nil,
    or_false] at ho1 hc1 ho2 hc2
  rcases ho1 with rfl | rfl | rfl <;> rcases ho2 with rfl | rfl | rfl <;>
    rcases hc1 with rfl | rfl <;> rcases hc2 with rfl | rfl <;>
    first
      | exact ⟨rfl, rfl⟩
      | (exfalso; revert h1; decide)

theorem getAssetName_injective_witness :
    "darwin" ∈ osNames ∧ "arm64" ∈ cpuNames ∧
    getAssetName "v1.2.3" (.str "darwin") (.str "arm64")
      = getAssetName "v1.2.3" (.str "darwin") (.str "arm64") ∧
    ("darwin" = "darwin" ∧ "arm64" = "arm64") :=
  ⟨by decide, by decide, rfl,
    getAssetName_injective "v1.2.3" "darwin" "arm64" "darwin" "arm64"
      (by decide) (by decide) (by decide) (by decide) rfl⟩

/-! ## The run: failures before the download -/

/-- C6: when `getPlatformInfo` fails on the host, `main` ends with exit code 1, failing at
the platform step with that error, and the run has no network step: neither
`getReleaseByTag` nor `downloadFile` nor any GET is in its trace. -/
theorem main_unsupported_platform_no_network (w : World) (fuel : Nat) (message : String)
    (h : getPlatformInfo w.platform w.arch = .error message) :
    ∃ run, main w fuel = some run ∧ run.exitCode = 1 ∧
      run.failure = some (.platform, message) ∧
      (∀ e ∈ run.trace, e.isNetwork = false) ∧
      (∀ tag, Event.getReleaseByTag tag ∉ run.trace) ∧
      (∀ url destPath, Event.downloadFile url destPath ∉ run.trace) := by
  refine ⟨fail .platform message [.consoleLog "Installing Claude Gym..."] w.fs, ?_, rfl, rfl,
    ?_, ?_, ?_⟩
  · simp [main, h]
  · intro e he
    simp [fail] at he
    rcases he with rfl | rfl <;> rfl
  · intro tag; simp [fail]
  · intro url destPath; simp [fail]

/-- C4: when the release's asset list has no entry named
`getAssetName(release.tag_name, os, cpu)`, `main` fails with
`Could not find release asset: <assetName>` and exit code 1, with no download step in the
run (no call of `downloadFile`, no GET, no directory created) and the file system as it was
at the start. -/
theorem main_asset_not_found (w : World) (fuel : Nat) (info : PlatformInfo)
    (pkgVersion : String) (release : Release)
    (hinfo : getPlatformInfo w.platform w.arch = .ok info)
    (hver : w.packageVersion = .ok pkgVersion)
    (hrel : w.releases ("v" ++ pkgVersion) = .ok release)
    (hnone : ∀ a ∈ release.assets, a.name ≠ getAssetName release.tag_name info.os info.cpu) :
    ∃ run, main w fuel = some run ∧ run.exitCode = 1 ∧
      run.failure = some (.asset, "Could not find release asset: "
        ++ getAssetName release.tag_name info.os info.cpu) ∧
      (∀ e ∈ run.trace, e.isDownloadStep = false) ∧
      (∀ url destPath, Event.downloadFile url destPath ∉ run.trace) ∧
      run.fs = w.fs := by
  have hfind : release.assets.find?
      (fun a => a.name == getAssetName release.tag_name info.os info.cpu) = none := by
    rw [List.find?_eq_none]
    intro a ha
    simpa using hnone a ha
  refine ⟨fail .asset ("Could not find release asset: "
      ++ getAssetName release.tag_name info.os info.cpu)
    ([.consoleLog "Installing Claude Gym...",
      .consoleLog ("Platform: " ++ info.os.toStr ++ "-" ++ info.cpu.toStr)]
      ++ [.consoleLog ("Version: " ++ ("v" ++ pkgVersion)), .getReleaseByTag ("v" ++ pkgVersion)])
    w.fs, ?_, ?_, ?_, ?_, ?_, ?_⟩
  · simp only [main, hinfo, hver, hrel, hfind]
    rfl
  · rfl
  · rfl
  · intro e he
    simp [fail] at he
    rcases he with rfl | rfl | rfl | rfl | rfl <;> rfl
  · intro url destPath; simp [fail]
  · rfl

/-! ## Asset fetcher: properties -/

theorem Listing.lookup_put (l : Listing) (name : String) (f : File) :
    (l.put name f).lookup name = some f := by
  simp [Listing.put, List.lookup]

theorem FS.dir_setDir (fs : FS) (d : Dir) (l : Option Listing) : (fs.setDir d l).dir d = l := by
  cases d <;> rfl

theorem FS.readFile_writeStream (fs fs2 : FS) (p : Loc) (content : String) (umask : Nat)
    (h : fs.writeStream p content umask = some fs2) :
    (fs2.readFile p).map File.content = some content := by
  unfold FS.writeStream at h
  cases hd : fs.dir p.1 with
  | none => simp [hd] at h
  | some l =>
    simp only [hd, Option.map_some', Option.some.injEq] at h
    subst h
    simp [FS.readFile, FS.dir_setDir, Listing.lookup_put]

theorem FS.writeStream_isSome (fs : FS) (p : Loc) (content : String) (umask : Nat)
    (h : fs.existsSync p.1 = true) : ∃ fs2, fs.writeStream p content umask = some fs2 := by
  unfold FS.existsSync at h
  cases hd : fs.dir p.1 with
  | none => simp [hd] at h
  | some l => simp [FS.writeStream, hd]

theorem FS.existsSync_writeStream (fs fs2 : FS) (p : Loc) (content : String) (umask : Nat)
    (h : fs.writeStream p content umask = some fs2) : fs2.existsSync p.1 = true := by
  unfold FS.writeStream at h
  cases hd : fs.dir p.1 with
  | none => simp [hd] at h
  | some l =>
    simp only [hd, Option.map_some', Option.some.injEq] at h
    subst h
    simp [FS.existsSync, FS.dir_setDir]

theorem redirectChain_ne_nil (server : Server) (hops : Nat) (url : String) (urls : List String)
    (h : redirectChain server hops url = some urls) : urls ≠ [] := by
  cases hops with
  | zero => simp [redirectChain] at h; subst h; simp
  | succ n =>
    simp only [redirectChain] at h
    split at h
    · split at h
      · simp only [Option.map_eq_some'] at h
        obtain ⟨r, -, rfl⟩ := h
        simp
      · simp at h
    · simp at h

/-- The inner `request` along a redirect chain: the GETs go to the URLs of the chain, and the
response at its end decides the outcome. -/
theorem request_along_chain (server : Server) (destPath : Loc) (umask : Nat)
    (response : Response) (target : String)
    (hresp : httpsGet server target = .response response)
    (h301 : response.statusCode ≠ 301) (h302 : response.statusCode ≠ 302) :
    ∀ (hops : Nat) (inCallback : Bool) (url : String) (urls gets : List String) (fs : FS)
      (fuel : Nat),
      redirectChain server hops url = some urls → urls.getLast? = some target → hops < fuel →
      request server destPath umask fuel inCallback url gets fs =
        if response.statusCode ≠ 200 then
          some { settled := .rejected ("Failed to download: " ++ toString response.statusCode),
                 gets := gets ++ urls, fs := fs }
        else
          match fs.writeStream destPath response.body umask with
          | none => some { settled := .uncaught "ENOENT: no such file or directory, open",
                           gets := gets ++ urls, fs := fs }
          | some fs2 => some { settled := .resolved, gets := gets ++ urls, fs := fs2 } := by
  intro hops
  induction hops with
  | zero =>
    intro inCallback url urls gets fs fuel hchain hlast hfuel
    simp only [redirectChain, Option.some.injEq] at hchain
    subst hchain
    simp only [List.getLast?_singleton, Option.some.injEq] at hlast
    subst hlast
    obtain ⟨n, rfl⟩ : ∃ n, fuel = n + 1 := ⟨fuel - 1, by omega⟩
    simp only [request, hresp]
    rw [if_neg (by simp [h301, h302])]
  | succ k ih =>
    intro inCallback url urls gets fs fuel hchain hlast hfuel
    obtain ⟨n, rfl⟩ : ∃ n, fuel = n + 1 := ⟨fuel - 1, by omega⟩
    simp only [redirectChain] at hchain
    cases hs : httpsGet server url with
    | threw message => simp [hs] at hchain
    | error err => simp [hs] at hchain
    | response r =>
      simp only [hs] at hchain
      by_cases hr : r.statusCode = 301 ∨ r.statusCode = 302
      · simp only [hr, if_true, Option.map_eq_some'] at hchain
        obtain ⟨rest, hrest, rfl⟩ := hchain
        have hne := redirectChain_ne_nil server k r.location rest hrest
        have hlast2 : rest.getLast? = some target := by
          cases rest with
          | nil => exact absurd rfl hne
          | cons a t => simpa [List.getLast?_cons_cons] using hlast
        have hr2 : r.statusCode = 302 ∨ r.statusCode = 301 := hr.symm
        simp only [request, hs, hr2, if_true]
        rw [ih true r.location rest (gets ++ [url]) fs n hrest hlast2 (by omega)]
        simp
      · simp [hr] at hchain

/-- C5, as stated, fails: with a server that answers the start URL with a 302 to a `Location`
over plain `http` and has a 200 response for that URL, `downloadFile` does not follow the
redirect to a successful download: `https.get` throws on the `http:` URL inside the response
callback, an uncaught exception, after the one GET to the start URL. -/
theorem downloadFile_redirect_to_http :
    httpMirrorServer "https://releases.test/asset"
      = .response { statusCode := 302, location := "http://mirror.test/asset", body := "" } ∧
    httpMirrorServer "http://mirror.test/asset"
      = .response { statusCode := 200, location := "", body := "archive" } ∧
    downloadFile httpMirrorServer 0o022 2 "https://releases.test/asset" (.tmp, "asset.tar.gz")
        { bin := none, tmp := some [] }
      = some { settled := .uncaught "Protocol \"http:\" not supported. Expected \"https:\"",
               gets := ["https://releases.test/asset"],
               fs := { bin := none,
                       tmp := some [("asset.tar.gz", { content := "", mode := 0o644 })] } } := by
  decide

/-- C5, amended: when `downloadFile` starts at `url` and the GETs along the way, each to a
URL that `https.get` accepts, are answered by 301 or 302 redirects, each followed by a GET to
its `Location`, up to the first response that is neither: the GETs go to exactly the URLs of
that chain, and with status 200 the download resolves with that response's body as the
contents of the destination file, while with any other status it rejects with
`Failed to download: <status>`. The destination's directory exists, and `fuel` exceeds the
number of redirects. -/
theorem downloadFile_follows_redirects (server : Server) (umask : Nat) (url : String)
    (destPath : Loc) (fs : FS) (hops : Nat) (urls : List String) (target : String)
    (response : Response) (fuel : Nat)
    (hdir : fs.existsSync destPath.1 = true)
    (hchain : redirectChain server hops url = some urls)
    (hlast : urls.getLast? = some target)
    (hresp : httpsGet server target = .response response)
    (h301 : response.statusCode ≠ 301) (h302 : response.statusCode ≠ 302)
    (hfuel : hops < fuel) :
    (response.statusCode = 200 →
      ∃ fs2, downloadFile server umask fuel url destPath fs
          = some { settled := .resolved, gets := urls, fs := fs2 } ∧
        (fs2.readFile destPath).map File.content = some response.body) ∧
    (response.statusCode ≠ 200 →
      ∃ fs2, downloadFile server umask fuel url destPath fs
          = some { settled := .rejected ("Failed to download: " ++ toString response.statusCode),
                   gets := urls, fs := fs2 }) := by
  obtain ⟨fs1, hopen⟩ := FS.writeStream_isSome fs destPath "" umask hdir
  have hdir1 := FS.existsSync_writeStream fs fs1 destPath _ _ hopen
  obtain ⟨fs2, hwrite⟩ := FS.writeStream_isSome fs1 destPath response.body umask hdir1
  have hreq := request_along_chain server destPath umask response target hresp h301 h302
    hops false url urls [] fs1 fuel hchain hlast hfuel
  constructor
  · intro h200
    refine ⟨fs2, ?_, FS.readFile_writeStream fs1 fs2 destPath _ _ hwrite⟩
    simp only [downloadFile, hopen, hreq, h200, hwrite]
    simp
  · intro hne
    refine ⟨fs1, ?_⟩
    simp only [downloadFile, hopen, hreq]
    simp [hne]

/-! ## The run: what the steps before the rename leave of the binaries directory -/

theorem FS.bin_setDir_tmp (fs : FS) (l : Option Listing) : (fs.setDir .tmp l).bin = fs.bin := rfl

theorem FS.bin_writeStream_tmp (fs fs2 : FS) (name content : String) (umask : Nat)
    (h : fs.writeStream (.tmp, name) content umask = some fs2) : fs2.bin = fs.bin := by
  unfold FS.writeStream at h
  cases hd : fs.dir (Dir.tmp, name).1 with
  | none => simp [hd] at h
  | some l =>
    simp only [hd, Option.map_some', Option.some.injEq] at h
    subst h
    rfl

theorem FS.bin_unlink_tmp (fs : FS) (name : String) : (fs.unlink (.tmp, name)).bin = fs.bin := by
  unfold FS.unlink
  split <;> rfl

theorem request_bin (server : Server) (name : String) (umask : Nat) :
    ∀ (fuel : Nat) (inCallback : Bool) (url : String) (gets : List String) (fs : FS)
      (d : Download),
      request server (.tmp, name) umask fuel inCallback url gets fs = some d →
      d.fs.bin = fs.bin := by
  intro fuel
  induction fuel with
  | zero => intro inCallback url gets fs d h; simp [request] at h
  | succ n ih =>
    intro inCallback url gets fs d h
    simp only [request] at h
    split at h
    · simp only [Option.some.injEq] at h
      subst h
      rfl
    · simp only [Option.some.injEq] at h
      subst h
      exact FS.bin_unlink_tmp fs name
    · split at h
      · exact ih _ _ _ _ _ h
      · split at h
        · simp only [Option.some.injEq] at h
          subst h
          rfl
        · split at h
          · simp only [Option.some.injEq] at h
            subst h
            rfl
          · rename_i fs2 hw
            simp only [Option.some.injEq] at h
            subst h
            exact FS.bin_writeStream_tmp fs fs2 name _ _ hw

theorem downloadFile_bin (server : Server) (umask fuel : Nat) (url name : String) (fs : FS)
    (d : Download) (h : downloadFile server umask fuel url (.tmp, name) fs = some d) :
    d.fs.bin = fs.bin := by
  unfold downloadFile at h
  split at h
  · simp only [Option.some.injEq] at h
    subst h
    rfl
  · rename_i fs1 hw
    rw [request_bin server name umask fuel false url [] fs1 d h]
    exact FS.bin_writeStream_tmp fs fs1 name _ _ hw

theorem unpack_bin (tool : Unarchiver) (archivePath : Loc) (fs : FS) :
    (unpack tool archivePath .tmp fs).2.bin = fs.bin := by
  unfold unpack
  split <;> rfl

theorem extractTarGz_bin (w : World) (archivePath : Loc) (fs : FS) :
    (extractTarGz w archivePath .tmp fs).2.bin = fs.bin := by
  unfold extractTarGz
  split
  · rfl
  · simp only
    split <;> rfl

theorem extractZip_bin (w : World) (archivePath : Loc) (fs : FS) :
    (extractZip w archivePath .tmp fs).2.bin = fs.bin := by
  unfold extractZip
  split <;> exact unpack_bin _ _ _

theorem fail_trace_rename (stage : Stage) (message : String) (trace : List Event) (fs : FS)
    (e : Event) (he : e ∈ (fail stage message trace fs).trace) (hr : e.isRename = true) :
    e ∈ trace := by
  simp only [fail, List.mem_append, List.mem_singleton] at he
  rcases he with he | rfl
  · exact he
  · simp [Event.isRename] at hr

theorem extractAndInstall_extract_failure (w : World) (info : PlatformInfo) (assetName : String)
    (trace : List Event) (fs : FS) (message : String)
    (hf : (extractAndInstall w info assetName trace fs).failure = some (.extract, message)) :
    (extractAndInstall w info assetName trace fs).fs.bin = fs.bin ∧
    (extractAndInstall w info assetName trace fs).exitCode = 1 ∧
    ∀ e ∈ (extractAndInstall w info assetName trace fs).trace, e.isRename = true → e ∈ trace := by
  have key : ∀ (first e : Event), first.isRename = false →
      e ∈ trace ++ [Event.consoleLog "Extracting..."] ++ [first] → e.isRename = true →
      e ∈ trace := by
    intro first e hfirst he hr
    simp only [List.mem_append, List.mem_singleton] at he
    rcases he with (he | rfl) | rfl
    · exact he
    · simp [Event.isRename] at hr
    · rw [hfirst] at hr; simp at hr
  unfold extractAndInstall at hf ⊢
  simp only at hf ⊢
  split at hf
  · rw [if_pos (by assumption)]
    have hb := extractZip_bin w (.tmp, assetName) fs
    split at hf
    · rename_i err fs1 hx
      rw [hx] at hb
      exact ⟨hb, rfl, fun e he hr => key (.extractZip (.tmp, assetName) .tmp) e rfl (fail_trace_rename _ _ _ _ e he hr) hr⟩
    · rename_i err fs1 hx
      rw [hx] at hb
      exact ⟨hb, rfl, fun e he hr => key (.extractZip (.tmp, assetName) .tmp) e rfl he hr⟩
    · split at hf
      · simp [fail] at hf
      · simp [cleanup] at hf
  · rw [if_neg (by assumption)]
    have hb := extractTarGz_bin w (.tmp, assetName) fs
    split at hf
    · rename_i err fs1 hx
      rw [hx] at hb
      exact ⟨hb, rfl, fun e he hr => key (.extractTarGz (.tmp, assetName) .tmp) e rfl (fail_trace_rename _ _ _ _ e he hr) hr⟩
    · rename_i err fs1 hx
      rw [hx] at hb
      exact ⟨hb, rfl, fun e he hr => key (.extractTarGz (.tmp, assetName) .tmp) e rfl he hr⟩
    · split at hf
      · simp [fail] at hf
      · split at hf
        · simp [fail] at hf
        · simp [cleanup] at hf

theorem ensureDir_bin_getD (d : Dir) (fs : FS) (trace : List Event) :
    (ensureDir d fs trace).1.bin.getD [] = fs.bin.getD [] := by
  unfold ensureDir
  cases d <;> cases hb : fs.bin <;> cases ht : fs.tmp <;>
    simp [FS.existsSync, FS.dir, FS.mkdirSync, FS.setDir, hb, ht]

theorem ensureDir_bin_isSome (fs : FS) (trace : List Event) :
    (ensureDir .bin fs trace).1.bin = some (fs.bin.getD []) := by
  unfold ensureDir
  cases hb : fs.bin <;> simp [FS.existsSync, FS.dir, FS.mkdirSync, FS.setDir, hb]

theorem ensureDir_tmp_bin (fs : FS) (trace : List Event) :
    (ensureDir .tmp fs trace).1.bin = fs.bin := by
  unfold ensureDir
  cases ht : fs.tmp <;> simp [FS.existsSync, FS.dir, FS.mkdirSync, FS.setDir, ht]

theorem ensureDir_trace (d : Dir) (fs : FS) (trace : List Event) (e : Event)
    (he : e ∈ (ensureDir d fs trace).2) : e ∈ trace ∨ e = .mkdirSync d := by
  unfold ensureDir at he
  split at he
  · simpa using he
  · exact Or.inl he

theorem downloadAndInstall_extract_failure (w : World) (fuel : Nat) (info : PlatformInfo)
    (assetName : String) (asset : Asset) (trace : List Event) (run : Run) (message : String)
    (h : downloadAndInstall w fuel info assetName asset trace = some run)
    (hf : run.failure = some (.extract, message)) :
    run.fs.bin.getD [] = w.fs.bin.getD [] ∧ run.exitCode = 1 ∧
    ∀ e ∈ run.trace, e.isRename = true → e ∈ trace := by
  unfold downloadAndInstall at h
  simp only at h
  split at h
  · simp at h
  · rename_i d hd
    have hbin := downloadFile_bin _ _ _ _ _ _ _ hd
    split at h
    · simp only [Option.some.injEq] at h
      subst h
      simp [fail] at hf
    · simp only [Option.some.injEq] at h
      subst h
      simp [crash] at hf
    · simp only [Option.some.injEq] at h
      subst h
      obtain ⟨h1, h2, h3⟩ := extractAndInstall_extract_failure w info assetName _ d.fs message hf
      refine ⟨?_, h2, ?_⟩
      · rw [h1, hbin, ensureDir_tmp_bin, ensureDir_bin_getD]
      · intro e he hr
        have hmem := h3 e he hr
        simp only [List.mem_append, List.mem_cons, List.mem_singleton, List.not_mem_nil,
          or_false, List.mem_map] at hmem
        rcases hmem with (hmem | rfl | rfl) | ⟨u, -, rfl⟩
        · rcases ensureDir_trace _ _ _ _ hmem with hmem | rfl
          · rcases ensureDir_trace _ _ _ _ hmem with hmem | rfl
            · exact hmem
            · simp [Event.isRename] at hr
          · simp [Event.isRename] at hr
        · simp [Event.isRename] at hr
        · simp [Event.isRename] at hr
        · simp [Event.isRename] at hr

/-! ## The run: failure of the extraction step -/

/-- C7, as stated, fails: on a host where `bin/cgym` is there from an earlier install, a run
whose extraction step fails ends, with exit code 1, with that file at the final destination
path. -/
theorem extraction_failure_leaves_earlier_binary :
    (main reinstallWorld 1).map (fun run =>
        (run.failure, run.exitCode, run.fs.readFile (.bin, "cgym")))
      = some (some (.extract, "incorrect header check"), 1,
          some { content := "binary of the earlier install", mode := 0o755 }) := by
  decide

/-- C7, amended: in every run of `main` whose extraction step fails, the rename step is never
reached, and the binaries directory holds at the end exactly the files it held before the
run: each path in it, the final destination path included, has no file if it had none and
otherwise the file it had. -/
theorem extraction_failure_keeps_destination (w : World) (fuel : Nat) (run : Run)
    (message : String)
    (h : main w fuel = some run)
    (hf : run.failure = some (.extract, message)) :
    run.exitCode = 1 ∧
    (∀ src dst, Event.renameSync src dst ∉ run.trace) ∧
    (∀ name, run.fs.readFile (.bin, name) = w.fs.readFile (.bin, name)) := by
  unfold main at h
  simp only at h
  split at h
  · simp only [Option.some.injEq] at h; subst h; simp [fail] at hf
  · split at h
    · simp only [Option.some.injEq] at h; subst h; simp [fail] at hf
    · split at h
      · simp only [Option.some.injEq] at h; subst h; simp [fail] at hf
      · split at h
        · simp only [Option.some.injEq] at h; subst h; simp [fail] at hf
        · obtain ⟨h1, h2, h3⟩ := downloadAndInstall_extract_failure _ _ _ _ _ _ _ _ h hf
          refine ⟨h2, ?_, ?_⟩
          · intro src dst hmem
            have := h3 _ hmem rfl
            simp at this
          · intro name
            have hr : ∀ fs : FS, fs.readFile (.bin, name) = (fs.bin.getD []).lookup name := by
              intro fs
              cases hb : fs.bin <;> simp [FS.readFile, FS.dir, hb]
            rw [hr, hr, h1]

theorem extraction_failure_keeps_destination_witness :
    main reinstallWorld 1 = some reinstallRun ∧
    reinstallRun.failure = some (.extract, "incorrect header check") ∧
    reinstallRun.exitCode = 1 ∧
    (∀ src dst, Event.renameSync src dst ∉ reinstallRun.trace) ∧
    (∀ name, reinstallRun.fs.readFile (.bin, name) = reinstallWorld.fs.readFile (.bin, name)) :=
  ⟨by decide, rfl,
    extraction_failure_keeps_destination reinstallWorld 1 reinstallRun "incorrect header check"
      (by decide) rfl⟩

/-! ## The run: a successful install on a non-windows host -/

theorem getPlatformInfo_isWindows (platform arch : String) (info : PlatformInfo)
    (h : getPlatformInfo platform arch = .ok info) :
    info.isWindows = (platform == "win32") := by
  unfold getPlatformInfo at h
  simp only at h
  split at h
  · simp at h
  · split at h
    · simp at h
    · split at h
      · simp at h
      · simp only [Except.ok.injEq] at h
        subst h
        rfl

theorem FS.renameSync_tmp_bin (fs fs2 : FS) (a b : String) (l : Listing)
    (hbin : fs.bin = some l) (h : fs.renameSync (.tmp, a) (.bin, b) = .ok fs2) :
    ∃ f, fs2.bin = some (l.put b f) ∧ fs2.tmp = (fs.unlink (.tmp, a)).tmp := by
  unfold FS.renameSync at h
  split at h
  · simp at h
  · rename_i f hf
    split at h
    · simp at h
    · rename_i fs3 hw
      simp only [Except.ok.injEq] at h
      subst h
      have hb : (fs.unlink (.tmp, a)).dir Dir.bin = some l := by
        show (fs.unlink (.tmp, a)).bin = some l
        rw [FS.bin_unlink_tmp, hbin]
      simp only [FS.writeFile, hb, Option.map_some', Option.some.injEq] at hw
      subst hw
      exact ⟨f, rfl, rfl⟩

theorem FS.chmodSync_bin (fs fs2 : FS) (b : String) (mode : Nat) (l : Listing)
    (hbin : fs.bin = some l) (h : fs.chmodSync (.bin, b) mode = .ok fs2) :
    ∃ f, l.lookup b = some f ∧ fs2.bin = some (l.put b { f with mode := mode }) ∧
      fs2.tmp = fs.tmp := by
  unfold FS.chmodSync at h
  split at h
  · simp at h
  · rename_i f hf
    split at h
    · simp at h
    · rename_i fs3 hw
      simp only [Except.ok.injEq] at h
      subst h
      have hb : fs.dir Dir.bin = some l := hbin
      simp only [FS.writeFile, hb, Option.map_some', Option.some.injEq] at hw
      subst hw
      simp only [FS.readFile, hb, Option.some_bind] at hf
      exact ⟨f, hf, rfl, rfl⟩

theorem Listing.put_put (l : Listing) (name : String) (f g : File) :
    (l.put name f).put name g = (name, g) :: l.filter (fun e => e.1 != name) := by
  simp [Listing.put, List.filter_filter]

theorem extractAndInstall_success_unix (w : World) (info : PlatformInfo) (assetName : String)
    (trace : List Event) (fs : FS) (l : Listing)
    (hwin : info.isWindows = false) (hbin : fs.bin = some l)
    (hok : (extractAndInstall w info assetName trace fs).exitCode = 0) :
    ∃ content, (extractAndInstall w info assetName trace fs).fs
      = { bin := some (("cgym", { content := content, mode := 0o755 })
                  :: l.filter (fun e => e.1 != "cgym")),
          tmp := none } := by
  unfold extractAndInstall at hok ⊢
  simp only [hwin, Bool.false_eq_true, if_false] at hok ⊢
  split at hok
  · simp [fail] at hok
  · simp [crash] at hok
  · rename_i fs1 hx
    have hbin1 : fs1.bin = some l := by
      have := extractTarGz_bin w (.tmp, assetName) fs
      rw [hx] at this
      rw [← hbin]; exact this
    split at hok
    · simp [fail] at hok
    · rename_i fs2 hren
      obtain ⟨f, hbin2, -⟩ := FS.renameSync_tmp_bin fs1 fs2 _ _ l hbin1 hren
      split at hok
      · simp [fail] at hok
      · rename_i fs3 hch
        obtain ⟨g, hg, hbin3, -⟩ := FS.chmodSync_bin fs2 fs3 _ _ _ hbin2 hch
        rw [Listing.lookup_put] at hg
        simp only [Option.some.injEq] at hg
        subst hg
        refine ⟨f.content, ?_⟩
        rw [Listing.put_put] at hbin3
        simp only [cleanup, FS.rmSync, FS.setDir, hbin3]

theorem downloadAndInstall_success_unix (w : World) (fuel : Nat) (info : PlatformInfo)
    (assetName : String) (asset : Asset) (trace : List Event) (run : Run)
    (hwin : info.isWindows = false)
    (h : downloadAndInstall w fuel info assetName asset trace = some run)
    (hok : run.exitCode = 0) :
    ∃ content, run.fs
      = { bin := some (("cgym", { content := content, mode := 0o755 })
                  :: (w.fs.bin.getD []).filter (fun e => e.1 != "cgym")),
          tmp := none } := by
  unfold downloadAndInstall at h
  simp only at h
  split at h
  · simp at h
  · rename_i d hd
    have hbin := downloadFile_bin _ _ _ _ _ _ _ hd
    rw [ensureDir_tmp_bin, ensureDir_bin_isSome] at hbin
    split at h
    · simp only [Option.some.injEq] at h
      subst h
      simp [fail] at hok
    · simp only [Option.some.injEq] at h
      subst h
      simp [crash] at hok
    · simp only [Option.some.injEq] at h
      subst h
      exact extractAndInstall_success_unix w info assetName _ d.fs _ hwin hbin hok

/-- C8, as stated, fails: on a linux host whose binaries directory holds a file before the
run, a successful run leaves two files in it, `cgym` and the one that was there. -/
theorem successful_install_keeps_other_files :
    (main sharedBinWorld 1).map (fun run => (run.exitCode, run.fs))
      = some (0, { bin := some [("cgym", { content := "binary", mode := 0o755 }),
                                (".gitkeep", { content := "", mode := 0o644 })],
                   tmp := none }) := by
  decide

/-- C8, amended: after every successful run of `main` on a non-windows platform, the binaries
directory holds a file named `cgym` with permission mode 755 and, besides it, exactly the
files not named `cgym` that it held before the run (so `cgym` is its only file when the
directory was absent or empty before the run), and the temporary directory `.tmp` does not
exist. -/
theorem successful_install_unix (w : World) (fuel : Nat) (run : Run)
    (hplat : w.platform ≠ "win32")
    (h : main w fuel = some run)
    (hok : run.exitCode = 0) :
    ∃ content, run.fs
      = { bin := some (("cgym", { content := content, mode := 0o755 })
                  :: (w.fs.bin.getD []).filter (fun e => e.1 != "cgym")),
          tmp := none } := by
  unfold main at h
  simp only at h
  split at h
  · simp only [Option.some.injEq] at h; subst h; simp [fail] at hok
  · rename_i info hinfo
    have hwin : info.isWindows = false := by
      rw [getPlatformInfo_isWindows _ _ _ hinfo]
      simpa using hplat
    split at h
    · simp only [Option.some.injEq] at h; subst h; simp [fail] at hok
    · split at h
      · simp only [Option.some.injEq] at h; subst h; simp [fail] at hok
      · split at h
        · simp only [Option.some.injEq] at h; subst h; simp [fail] at hok
        · exact downloadAndInstall_success_unix _ _ _ _ _ _ _ hwin h hok

theorem successful_install_unix_witness :
    sharedBinWorld.platform ≠ "win32" ∧ main sharedBinWorld 1 = some sharedBinRun ∧
    sharedBinRun.exitCode = 0 ∧
    ∃ content, sharedBinRun.fs
      = { bin := some (("cgym", { content := content, mode := 0o755 })
                  :: (sharedBinWorld.fs.bin.getD []).filter (fun e => e.1 != "cgym")),
          tmp := none } :=
  ⟨by decide, by decide, rfl,
    successful_install_unix sharedBinWorld 1 sharedBinRun (by decide) (by decide) rfl⟩

/-! ## The archive format and the asset's extension -/

theorem getLast?_of_suffix (l s : List Char) (h : s <:+ l) (hs : s ≠ []) :
    l.getLast? = s.getLast? := by
  obtain ⟨t, rfl⟩ := h
  exact List.getLast?_append_of_ne_nil t hs

theorem endsWith_append_right (x s : String) : endsWith (x ++ s) s := by
  unfold endsWith
  rw [String.data_append]
  exact List.suffix_append _ _

theorem getLast?_append_right (x s : String) (hs : s.data ≠ []) :
    (x ++ s).data.getLast? = s.data.getLast? := by
  rw [String.data_append]
  exact List.getLast?_append_of_ne_nil _ hs

theorem getAssetName_endsWith_zip (version : String) (os cpu : JSVal) :
    endsWith (getAssetName version os cpu) ".zip" ↔ os = .str "windows" := by
  unfold getAssetName
  by_cases h : os = .str "windows"
  · simp only [h, if_true, iff_true]
    rw [String.append_assoc _ "." "zip"]
    exact endsWith_append_right _ ".zip"
  · simp only [h, if_false, iff_false]
    intro hs
    have h1 := getLast?_of_suffix _ _ hs (by decide)
    rw [getLast?_append_right _ "tar.gz" (by decide)] at h1
    revert h1
    decide

theorem getAssetName_endsWith_targz (version : String) (os cpu : JSVal) :
    endsWith (getAssetName version os cpu) ".tar.gz" ↔ os ≠ .str "windows" := by
  unfold getAssetName
  by_cases h : os = .str "windows"
  · simp only [h, if_true, ne_eq, not_true_eq_false, iff_false]
    intro hs
    have h1 := getLast?_of_suffix _ _ hs (by decide)
    rw [getLast?_append_right _ "zip" (by decide)] at h1
    revert h1
    decide
  · simp only [h, if_false, ne_eq, not_false_eq_true, iff_true]
    rw [String.append_assoc _ "." "tar.gz"]
    exact endsWith_append_right _ ".tar.gz"

theorem getPlatformInfo_os_windows (platform arch : String) (info : PlatformInfo)
    (h : getPlatformInfo platform arch = .ok info) :
    info.isWindows = true ↔ info.os = .str "windows" := by
  have hw := getPlatformInfo_isWindows platform arch info h
  have hos : info.os = propertyGet platformMap platform := by
    unfold getPlatformInfo at h
    simp only at h
    split at h
    · simp at h
    · split at h
      · simp at h
      · split at h
        · simp at h
        · simp only [Except.ok.injEq] at h
          subst h
          rfl
  rw [hw, hos, propertyGet_platformMap]
  by_cases h1 : platform = "darwin"
  · subst h1; decide
  by_cases h2 : platform = "linux"
  · subst h2; decide
  by_cases h3 : platform = "win32"
  · subst h3; decide
  simp only [h1, h2, h3, if_false, beq_iff_eq]
  split <;> simp

theorem append_ne_extracting (p x : String) (c : Char) (t : List Char)
    (hp : p.data = c :: t) (hc : c ≠ 'E') : (p ++ x == "Extracting...") = false := by
  rw [beq_eq_false_iff_ne]
  intro h
  have h1 := congrArg String.data h
  rw [String.data_append, hp] at h1
  have h2 : "Extracting...".data = 'E' :: "xtracting...".data := by decide
  rw [h2] at h1
  simp only [List.cons_append, List.cons.injEq] at h1
  exact hc h1.1

theorem fail_not_extractStep (stage : Stage) (message : String) (trace : List Event) (fs : FS)
    (ht : ∀ e ∈ trace, e.isExtractStep = false) :
    ∀ e ∈ (fail stage message trace fs).trace, e.isExtractStep = false := by
  intro e he
  simp only [fail, List.mem_append, List.mem_singleton] at he
  rcases he with he | rfl
  · exact ht e he
  · rfl

theorem ensureDir_not_extractStep (d : Dir) (fs : FS) (trace : List Event)
    (ht : ∀ e ∈ trace, e.isExtractStep = false) :
    ∀ e ∈ (ensureDir d fs trace).2, e.isExtractStep = false := by
  intro e he
  rcases ensureDir_trace d fs trace e he with he | rfl
  · exact ht e he
  · rfl

/-- The part of `main` after the download calls the extractor for the platform, on the
archive at `.tmp/<assetName>`, after its log line. -/
theorem extractAndInstall_calls_extractor (w : World) (info : PlatformInfo)
    (assetName : String) (trace : List Event) (fs : FS) :
    Event.consoleLog "Extracting..." ∈ (extractAndInstall w info assetName trace fs).trace ∧
    (info.isWindows = true →
      Event.extractZip (.tmp, assetName) .tmp
        ∈ (extractAndInstall w info assetName trace fs).trace) ∧
    (info.isWindows = false →
      Event.extractTarGz (.tmp, assetName) .tmp
        ∈ (extractAndInstall w info assetName trace fs).trace) := by
  unfold extractAndInstall
  simp only
  split
  · rename_i hwin
    have hf : ¬ (info.isWindows = false) := by simp [hwin]
    split
    · simp [fail, hf]
    · simp [crash, hf]
    · split
      · simp [fail, hf]
      · simp [cleanup, hf]
  · rename_i hwin
    split
    · simp [fail, hwin]
    · simp [crash, hwin]
    · split
      · simp [fail, hwin]
      · split
        · simp [fail, hwin]
        · simp [cleanup, hwin]

/-- The extractor calls in the trace of the part of `main` after the download, when there is
none before it: only the call for the platform, on the archive at `.tmp/<assetName>`. -/
theorem extractAndInstall_trace_extract (w : World) (info : PlatformInfo) (assetName : String)
    (trace : List Event) (fs : FS) (e : Event)
    (ht : ∀ x ∈ trace, x.isExtractStep = false)
    (he : e ∈ (extractAndInstall w info assetName trace fs).trace) (hx : e.isExtract = true) :
    (info.isWindows = true ∧ e = .extractZip (.tmp, assetName) .tmp) ∨
      (info.isWindows = false ∧ e = .extractTarGz (.tmp, assetName) .tmp) := by
  have hnot : e ∉ trace := by
    intro hmem
    have h1 := ht e hmem
    cases e <;> simp [Event.isExtract, Event.isExtractStep] at hx h1
  have key : ∀ (first : Event) (rest : List Event),
      e ∈ trace ++ [Event.consoleLog "Extracting..."] ++ [first] ++ rest →
      (∀ x ∈ rest, x.isExtract = false) → e = first := by
    intro first rest hmem hrest
    simp only [List.mem_append, List.mem_singleton] at hmem
    rcases hmem with ((hmem | rfl) | rfl) | hmem
    · exact absurd hmem hnot
    · simp [Event.isExtract] at hx
    · rfl
    · rw [hrest e hmem] at hx; simp at hx
  unfold extractAndInstall at he
  simp only at he
  split at he
  · rename_i hwin
    refine Or.inl ⟨hwin, ?_⟩
    split at he
    · exact key _ [.consoleError _] (by simpa [fail] using he) (by simp [Event.isExtract])
    · exact key _ [] (by simpa [crash] using he) (by simp)
    · split at he
      · exact key _ [_, .consoleError _] (by simpa [fail] using he) (by simp [Event.isExtract])
      · exact key _ [_, _, _, _] (by simpa [cleanup] using he) (by simp [Event.isExtract])
  · rename_i hwin
    refine Or.inr ⟨by simpa using hwin, ?_⟩
    split at he
    · exact key _ [.consoleError _] (by simpa [fail] using he) (by simp [Event.isExtract])
    · exact key _ [] (by simpa [crash] using he) (by simp)
    · split at he
      · exact key _ [_, .consoleError _] (by simpa [fail] using he) (by simp [Event.isExtract])
      · split at he
        · exact key _ [_, _, .consoleError _] (by simpa [fail] using he)
            (by simp [Event.isExtract])
        · exact key _ [_, _, _, _, _] (by simpa [cleanup] using he) (by simp [Event.isExtract])

/-- A run of the part of `main` from the directory setup on either fails before the
extraction stage, with no step of that stage in its trace, or is a run of the part after the
download. -/
theorem downloadAndInstall_cases (w : World) (fuel : Nat) (info : PlatformInfo)
    (assetName : String) (asset : Asset) (trace : List Event) (run : Run)
    (ht : ∀ e ∈ trace, e.isExtractStep = false)
    (h : downloadAndInstall w fuel info assetName asset trace = some run) :
    (run.exitCode = 1 ∧ ∀ e ∈ run.trace, e.isExtractStep = false) ∨
    ∃ trace0 fs0, (∀ e ∈ trace0, e.isExtractStep = false) ∧
      run = extractAndInstall w info assetName trace0 fs0 := by
  have key : ∀ gets : List String,
      ∀ e ∈ (ensureDir .tmp (ensureDir .bin w.fs trace).1 (ensureDir .bin w.fs trace).2).2
          ++ [Event.consoleLog ("Downloading " ++ assetName ++ "..."),
              Event.downloadFile asset.browser_download_url (.tmp, assetName)]
          ++ gets.map Event.httpsGet, e.isExtractStep = false := by
    intro gets e hmem
    simp only [List.mem_append, List.mem_cons, List.mem_singleton, List.not_mem_nil,
      or_false, List.mem_map] at hmem
    rcases hmem with (hmem | rfl | rfl) | ⟨u, -, rfl⟩
    · exact ensureDir_not_extractStep _ _ _ (ensureDir_not_extractStep _ _ _ ht) e hmem
    · show (("Downloading " ++ assetName ++ "...") == "Extracting...") = false
      rw [String.append_assoc]
      exact append_ne_extracting _ _ 'D' "ownloading ".data (by decide) (by decide)
    · rfl
    · rfl
  unfold downloadAndInstall at h
  simp only at h
  split at h
  · simp at h
  · rename_i d hd
    split at h
    · simp only [Option.some.injEq] at h
      subst h
      exact Or.inl ⟨rfl, fail_not_extractStep _ _ _ _ (key _)⟩
    · simp only [Option.some.injEq] at h
      subst h
      exact Or.inl ⟨rfl, key _⟩
    · simp only [Option.some.injEq] at h
      subst h
      exact Or.inr ⟨_, _, key _, rfl⟩

/-- A run of `main` either fails before the extraction stage, with no step of that stage in
its trace, or the version and release lookups succeeded and the run ends with the part after
the download, for the asset named after `release.tag_name`. -/
theorem main_cases (w : World) (fuel : Nat) (info : PlatformInfo) (run : Run)
    (hinfo : getPlatformInfo w.platform w.arch = .ok info)
    (h : main w fuel = some run) :
    (run.exitCode = 1 ∧ ∀ e ∈ run.trace, e.isExtractStep = false) ∨
    ∃ pkgVersion release trace0 fs0,
      w.packageVersion = .ok pkgVersion ∧ w.releases ("v" ++ pkgVersion) = .ok release ∧
      (∀ e ∈ trace0, e.isExtractStep = false) ∧
      run = extractAndInstall w info
        (getAssetName release.tag_name info.os info.cpu) trace0 fs0 := by
  have h1 : ∀ e ∈ [Event.consoleLog "Installing Claude Gym..."]
      ++ [Event.consoleLog ("Platform: " ++ info.os.toStr ++ "-" ++ info.cpu.toStr)],
      e.isExtractStep = false := by
    intro e he
    simp only [List.mem_append, List.mem_singleton] at he
    rcases he with rfl | rfl
    · decide
    · show (("Platform: " ++ info.os.toStr ++ "-" ++ info.cpu.toStr) == "Extracting...") = false
      rw [String.append_assoc, String.append_assoc]
      exact append_ne_extracting _ _ 'P' "latform: ".data (by decide) (by decide)
  have h2 : ∀ tag : String, ∀ e ∈ [Event.consoleLog "Installing Claude Gym..."]
      ++ [Event.consoleLog ("Platform: " ++ info.os.toStr ++ "-" ++ info.cpu.toStr)]
      ++ [Event.consoleLog ("Version: " ++ tag), Event.getReleaseByTag tag],
      e.isExtractStep = false := by
    intro tag e he
    rw [List.mem_append] at he
    rcases he with he | he
    · exact h1 e he
    · simp only [List.mem_cons, List.mem_singleton, List.not_mem_nil, or_false] at he
      rcases he with rfl | rfl
      · exact append_ne_extracting _ _ 'V' "ersion: ".data (by decide) (by decide)
      · rfl
  unfold main at h
  simp only [hinfo] at h
  split at h
  · simp only [Option.some.injEq] at h; subst h
    exact Or.inl ⟨rfl, fail_not_extractStep _ _ _ _ h1⟩
  · rename_i pkgVersion hver
    split at h
    · simp only [Option.some.injEq] at h; subst h
      exact Or.inl ⟨rfl, fail_not_extractStep _ _ _ _ (h2 _)⟩
    · rename_i release hrel
      split at h
      · simp only [Option.some.injEq] at h; subst h
        exact Or.inl ⟨rfl, fail_not_extractStep _ _ _ _ (h2 _)⟩
      · rcases downloadAndInstall_cases _ _ _ _ _ _ _ (h2 _) h with hc | ⟨trace0, fs0, ht, hr⟩
        · exact Or.inl hc
        · exact Or.inr ⟨pkgVersion, release, trace0, fs0, hver, hrel, ht, hr⟩

/-- C10: when `getPlatformInfo` succeeds on the host with `{os, cpu, isWindows}`, `isWindows`
is true if and only if `os` is `windows`, which is if and only if the asset name ends in
`.zip`, and false if and only if the name ends in `.tar.gz`. In every run of `main`, a call
of an extractor is a call of `extractZip` on the archive named
`getAssetName(release.tag_name, os, cpu)` with that name ending in `.zip` (and not in
`.tar.gz`), or a call of `extractTarGz` on it with the name ending in `.tar.gz` (and not in
`.zip`); and every run that reaches the extraction stage (it logs `Extracting...`, as every
run with exit code 0 does) calls `extractZip` on that archive when the name ends in `.zip`
and `extractTarGz` when it ends in `.tar.gz`. -/
theorem extractor_agrees_with_extension (w : World) (fuel : Nat) (info : PlatformInfo)
    (run : Run)
    (hinfo : getPlatformInfo w.platform w.arch = .ok info)
    (h : main w fuel = some run) :
    (info.isWindows = true ↔ info.os = .str "windows") ∧
    (∀ version, info.isWindows = true ↔
      endsWith (getAssetName version info.os info.cpu) ".zip") ∧
    (∀ version, info.isWindows = false ↔
      endsWith (getAssetName version info.os info.cpu) ".tar.gz") ∧
    (∀ e ∈ run.trace, e.isExtract = true →
      ∃ pkgVersion release,
        w.packageVersion = .ok pkgVersion ∧ w.releases ("v" ++ pkgVersion) = .ok release ∧
        ((e = .extractZip (.tmp, getAssetName release.tag_name info.os info.cpu) .tmp ∧
            endsWith (getAssetName release.tag_name info.os info.cpu) ".zip" ∧
            ¬ endsWith (getAssetName release.tag_name info.os info.cpu) ".tar.gz") ∨
          (e = .extractTarGz (.tmp, getAssetName release.tag_name info.os info.cpu) .tmp ∧
            endsWith (getAssetName release.tag_name info.os info.cpu) ".tar.gz" ∧
            ¬ endsWith (getAssetName release.tag_name info.os info.cpu) ".zip"))) ∧
    (Event.consoleLog "Extracting..." ∈ run.trace ∨ run.exitCode = 0 →
      ∃ pkgVersion release,
        w.packageVersion = .ok pkgVersion ∧ w.releases ("v" ++ pkgVersion) = .ok release ∧
        Event.consoleLog "Extracting..." ∈ run.trace ∧
        (endsWith (getAssetName release.tag_name info.os info.cpu) ".zip" →
          Event.extractZip (.tmp, getAssetName release.tag_name info.os info.cpu) .tmp
            ∈ run.trace) ∧
        (endsWith (getAssetName release.tag_name info.os info.cpu) ".tar.gz" →
          Event.extractTarGz (.tmp, getAssetName release.tag_name info.os info.cpu) .tmp
            ∈ run.trace)) := by
  have hos := getPlatformInfo_os_windows _ _ _ hinfo
  have hzip : ∀ version, info.isWindows = true ↔
      endsWith (getAssetName version info.os info.cpu) ".zip" :=
    fun version => hos.trans (getAssetName_endsWith_zip version info.os info.cpu).symm
  have htar : ∀ version, info.isWindows = false ↔
      endsWith (getAssetName version info.os info.cpu) ".tar.gz" := by
    intro version
    rw [getAssetName_endsWith_targz]
    constructor
    · intro hf hw
      rw [hos.2 hw] at hf
      exact Bool.noConfusion hf
    · intro hne
      cases hb : info.isWindows with
      | false => rfl
      | true => exact absurd (hos.1 hb) hne
  refine ⟨hos, hzip, htar, ?_, ?_⟩
  · intro e he hx
    rcases main_cases w fuel info run hinfo h with ⟨-, hnone⟩ | ⟨pv, rel, t0, fs0, hv, hr, ht, hrun⟩
    · have h1 := hnone e he
      cases e <;> simp [Event.isExtract, Event.isExtractStep] at hx h1
    · subst hrun
      refine ⟨pv, rel, hv, hr, ?_⟩
      rcases extractAndInstall_trace_extract w info _ t0 fs0 e ht he hx with ⟨hw, rfl⟩ | ⟨hw, rfl⟩
      · refine Or.inl ⟨rfl, (hzip _).1 hw, ?_⟩
        rw [← htar, hw]; simp
      · refine Or.inr ⟨rfl, (htar _).1 hw, ?_⟩
        rw [← hzip, hw]; simp
  · intro hreach
    rcases main_cases w fuel info run hinfo h with ⟨hexit, hnone⟩ | ⟨pv, rel, t0, fs0, hv, hr, ht, hrun⟩
    · rcases hreach with hlog | h0
      · have h1 := hnone _ hlog
        simp [Event.isExtractStep] at h1
      · rw [hexit] at h0
        exact absurd h0 (by decide)
    · subst hrun
      obtain ⟨hlog, hz, ht2⟩ := extractAndInstall_calls_extractor w info
        (getAssetName rel.tag_name info.os info.cpu) t0 fs0
      exact ⟨pv, rel, hv, hr, hlog, fun hs => hz ((hzip _).2 hs), fun hs => ht2 ((htar _).2 hs)⟩

theorem extractor_agrees_with_extension_witness :
    getPlatformInfo windowsWorld.platform windowsWorld.arch
      = .ok { os := .str "windows", cpu := .str "amd64", isWindows := true } ∧
    main windowsWorld 1 = some windowsRun ∧
    windowsRun.exitCode = 0 ∧
    ∃ pkgVersion release,
      windowsWorld.packageVersion = .ok pkgVersion ∧
      windowsWorld.releases ("v" ++ pkgVersion) = .ok release ∧
      Event.consoleLog "Extracting..." ∈ windowsRun.trace ∧
      (endsWith (getAssetName release.tag_name (.str "windows") (.str "amd64")) ".zip" →
        Event.extractZip (.tmp, getAssetName release.tag_name (.str "windows") (.str "amd64"))
          .tmp ∈ windowsRun.trace) ∧
      (endsWith (getAssetName release.tag_name (.str "windows") (.str "amd64")) ".tar.gz" →
        Event.extractTarGz (.tmp, getAssetName release.tag_name (.str "windows") (.str "amd64"))
          .tmp ∈ windowsRun.trace) :=
  ⟨by decide, by decide, rfl,
    (extractor_agrees_with_extension windowsWorld 1
      { os := .str "windows", cpu := .str "amd64", isWindows := true } windowsRun
      (by decide) (by decide)).2.2.2.2 (Or.inr rfl)⟩

/-! ## Witnesses for the failures before the download and for the asset fetcher -/

theorem main_unsupported_platform_no_network_witness :
    getPlatformInfo linuxArmWorld.platform linuxArmWorld.arch
      = .error "Linux ARM64 is not supported yet" ∧
    ∃ run, main linuxArmWorld 0 = some run ∧ run.exitCode = 1 ∧
      run.failure = some (.platform, "Linux ARM64 is not supported yet") ∧
      (∀ e ∈ run.trace, e.isNetwork = false) ∧
      (∀ tag, Event.getReleaseByTag tag ∉ run.trace) ∧
      (∀ url destPath, Event.downloadFile url destPath ∉ run.trace) :=
  ⟨by decide,
    main_unsupported_platform_no_network linuxArmWorld 0 "Linux ARM64 is not supported yet"
      (by decide)⟩

theorem main_asset_not_found_witness :
    getPlatformInfo missingAssetWorld.platform missingAssetWorld.arch
      = .ok { os := .str "darwin", cpu := .str "arm64", isWindows := false } ∧
    (∀ a ∈ linuxOnlyRelease.assets,
      a.name ≠ getAssetName linuxOnlyRelease.tag_name (.str "darwin") (.str "arm64")) ∧
    ∃ run, main missingAssetWorld 0 = some run ∧ run.exitCode = 1 ∧
      run.failure = some (.asset, "Could not find release asset: "
        ++ getAssetName linuxOnlyRelease.tag_name (.str "darwin") (.str "arm64")) ∧
      (∀ e ∈ run.trace, e.isDownloadStep = false) ∧
      (∀ url destPath, Event.downloadFile url destPath ∉ run.trace) ∧
      run.fs = missingAssetWorld.fs :=
  ⟨by decide, by decide,
    main_asset_not_found missingAssetWorld 0
      { os := .str "darwin", cpu := .str "arm64", isWindows := false } "1.0.0" linuxOnlyRelease
      (by decide) rfl rfl (by decide)⟩

theorem downloadFile_follows_redirects_witness :
    redirectChain mirrorServer 1 "https://releases.test/asset"
      = some ["https://releases.test/asset", "https://mirror.test/asset"] ∧
    httpsGet mirrorServer "https://mirror.test/asset"
      = .response { statusCode := 200, location := "", body := "archive" } ∧
    (∃ fs2, downloadFile mirrorServer 0o022 2 "https://releases.test/asset"
          (.tmp, "asset.tar.gz") { bin := none, tmp := some [] }
        = some { settled := .resolved,
                 gets := ["https://releases.test/asset", "https://mirror.test/asset"],
                 fs := fs2 } ∧
      (fs2.readFile (.tmp, "asset.tar.gz")).map File.content = some "archive") :=
  ⟨by decide, by decide,
    (downloadFile_follows_redirects mirrorServer 0o022 "https://releases.test/asset"
      (.tmp, "asset.tar.gz") { bin := none, tmp := some [] } 1
      ["https://releases.test/asset", "https://mirror.test/asset"]
      "https://mirror.test/asset" { statusCode := 200, location := "", body := "archive" } 2
      (by decide) (by decide) (by decide) (by decide) (by decide) (by decide)
      (by decide)).1 rfl⟩

end Install
